import Mathlib

/-!
# Verification of the samba status report module

A shallow embedding of `src/_modules/samba_users.py` (a Salt execution
module collecting samba share usage, file locks and disk usage) together
with proofs about its parsing pipeline, error handling and report
assembly.

Modelling conventions:
* Python strings are `String`; the byte-level decoding step is out of
  scope (the module already hands decoded text to the parsers).
* Python dicts are association lists `List (String × α)` with
  insertion-order semantics (`dictInsert` overwrites in place, appends
  new keys at the end), matching CPython's observable dict behaviour.
* Python exceptions are an explicit error type `PyErr`; a function that
  can raise returns `Except PyErr α`.
* The host services injected through the `__salt__` dispatch table
  (`cmd.run_all`, `pillar.get`, `disk.usage`) are fields of an
  environment record `Env`.
-/

namespace SambaUsers

/-- Python exceptions raised (or raisable) by the module. -/
inductive PyErr where
  /-- `SmbstatusError`, the module's own exception class. -/
  | smbstatusError (msg : String)
  /-- `KeyError` from a failed dict lookup (e.g. `space_data[mount_point]`). -/
  | keyError (key : String)
  /-- `ValueError` from `datetime.strptime` on malformed date input. -/
  | valueError (msg : String)
  /-- `IndexError` from an out-of-range list index (e.g. `split_line[2]`). -/
  | indexError
  /-- `AssertionError` from the length-19 date assertion in `_smbstatus_data`. -/
  | assertionError (msg : String)
  deriving DecidableEq, Repr

/-- Decidable equality for `Except`, used to evaluate the model on
concrete inputs. -/
instance exceptDecEq {ε α : Type} [DecidableEq ε] [DecidableEq α] :
    DecidableEq (Except ε α)
  | .error a, .error b =>
    if h : a = b then .isTrue (by subst h; rfl)
    else .isFalse (fun hh => h (Except.error.inj hh))
  | .error _, .ok _ => .isFalse (fun hh => Except.noConfusion hh)
  | .ok _, .error _ => .isFalse (fun hh => Except.noConfusion hh)
  | .ok a, .ok b =>
    if h : a = b then .isTrue (by subst h; rfl)
    else .isFalse (fun hh => h (Except.ok.inj hh))

/-! ## Python string primitives -/

/-- Python `str` whitespace (as used by `str.split()`, `str.strip()` and
the `\s` regex class on byte strings): space, tab, newline, carriage
return, vertical tab, form feed. -/
def pyIsSpace (c : Char) : Bool :=
  c == ' ' || c == '\t' || c == '\n' || c == '\r' || c == '\x0b' || c == '\x0c'

/-- Python `str.strip()` with no argument: remove leading and trailing
whitespace. -/
def pystrip (s : String) : String :=
  String.mk (((s.data.dropWhile pyIsSpace).reverse.dropWhile pyIsSpace).reverse)

/-- Helper for `pysplit`: accumulate the current token (reversed) while
scanning. -/
def pysplitAux : List Char → List Char → List String
  | acc, [] => if acc = [] then [] else [String.mk acc.reverse]
  | acc, c :: rest =>
    if pyIsSpace c then
      if acc = [] then pysplitAux [] rest
      else String.mk acc.reverse :: pysplitAux [] rest
    else pysplitAux (c :: acc) rest

/-- Python `str.split()` with no argument: split on runs of whitespace,
discarding empty tokens. -/
def pysplit (s : String) : List String := pysplitAux [] s.data

/-- Python `' '.join(tokens)` as a character list. -/
def joinSpace : List String → List Char
  | [] => []
  | [t] => t.data
  | t :: rest => t.data ++ ' ' :: joinSpace rest

/-- `startswith` on decoded text. -/
def pyStartswith (pre s : String) : Bool := pre.data.isPrefixOf s.data

/-- `os.path.basename` for POSIX paths: everything after the last `/`. -/
def basename (s : String) : String :=
  String.mk ((s.data.reverse.takeWhile (fun c => c != '/')).reverse)

/-! ## Python dict operations (association lists, insertion order) -/

/-- Lookup `d[k]` returning `none` instead of raising. -/
def dictLookup (d : List (String × α)) (k : String) : Option α :=
  (d.find? (fun p => p.1 == k)).map (fun p => p.2)

/-- Assignment `d[k] = v`: overwrite in place if the key exists,
otherwise append at the end (CPython insertion order). -/
def dictInsert (d : List (String × α)) (k : String) (v : α) : List (String × α) :=
  if d.any (fun p => p.1 == k) then d.map (fun p => if p.1 == k then (k, v) else p)
  else d ++ [(k, v)]

/-- `d.pop(k)`'s removal effect (the records built by the parsers have
pairwise distinct keys, so removing every binding of `k` agrees with
Python's single-entry removal). -/
def dictRemove (d : List (String × α)) (k : String) : List (String × α) :=
  d.filter (fun p => p.1 != k)

/-- The key list of a dict. -/
def keys (d : List (String × α)) : List String := d.map Prod.fst

/-! ## The date normalizer `_normdate`

`_normdate` is `datetime.datetime.strptime(datestr, '%a %b %d %H:%M:%S %Y').isoformat()`.
The embedding reproduces CPython's `_strptime` component patterns for this
format string (weekday/month abbreviation alternations matched
case-insensitively, `%d` as `3[01]|[12]\d|0[1-9]|[1-9]| [1-9]`, `%H` as
`2[0-3]|[0-1]\d|\d`, `%M` as `[0-5]\d|\d`, `%S` as `6[0-1]|[0-5]\d|\d`,
`%Y` as four digits, whitespace in the format matching a nonempty
whitespace run) followed by the range validation performed by the
`datetime` constructor, and `isoformat()` for a datetime with
`microsecond == 0`.
-/

/-- Numeric value of a digit character. -/
def dval (c : Char) : Nat := c.toNat - 48

/-- Nonzero decimal digit (`[1-9]`). -/
def isNonzeroDigit (c : Char) : Bool := '1' ≤ c && c ≤ '9'

/-- Case-insensitive literal match (the literal is stored lowercase, as
in CPython's `LocaleTime`); returns the remaining input on success. -/
def matchCI : List Char → List Char → Option (List Char)
  | [], cs => some cs
  | _ :: _, [] => none
  | l :: ls, c :: cs => if c.toLower == l then matchCI ls cs else none

/-- Abbreviated weekday names of the C locale, lowercase. -/
def weekdayAbbrevs : List String :=
  ["mon", "tue", "wed", "thu", "fri", "sat", "sun"]

/-- Abbreviated month names of the C locale, lowercase. -/
def monthAbbrevs : List String :=
  ["jan", "feb", "mar", "apr", "may", "jun", "jul", "aug", "sep", "oct", "nov", "dec"]

/-- `%a`: one of the weekday abbreviations, case-insensitive; the value
is discarded (`datetime.strptime` ignores the parsed weekday). -/
def pWeekday (cs : List Char) : Option (List Char) :=
  weekdayAbbrevs.findSome? (fun l => matchCI l.data cs)

/-- `%b`: a month abbreviation, case-insensitive, giving the month number. -/
def pMonth (cs : List Char) : Option (Nat × List Char) :=
  monthAbbrevs.enum.findSome? (fun p => (matchCI p.2.data cs).map (fun r => (p.1 + 1, r)))

/-- A literal whitespace in the format string: `\s+` in the compiled
pattern (matched greedily; all reachable inputs separate fields by a
single space, so greediness is observationally exact here). -/
def pWS1 : List Char → Option (List Char)
  | c :: cs => if pyIsSpace c then some (cs.dropWhile pyIsSpace) else none
  | [] => none

/-- A literal `:` in the format string. -/
def pColon : List Char → Option (List Char)
  | ':' :: cs => some cs
  | _ => none

/-- `%d` alternative `3[01]`. -/
def pD1 : List Char → Option (Nat × List Char)
  | '3' :: c :: r => if c == '0' || c == '1' then some (30 + dval c, r) else none
  | _ => none

/-- `%d` alternative `[12]\d`. -/
def pD2 : List Char → Option (Nat × List Char)
  | c :: d :: r =>
    if (c == '1' || c == '2') && d.isDigit then some (dval c * 10 + dval d, r) else none
  | _ => none

/-- `%d` alternative `0[1-9]`. -/
def pD3 : List Char → Option (Nat × List Char)
  | '0' :: c :: r => if isNonzeroDigit c then some (dval c, r) else none
  | _ => none

/-- `%d` alternative `[1-9]`. -/
def pD4 : List Char → Option (Nat × List Char)
  | c :: r => if isNonzeroDigit c then some (dval c, r) else none
  | _ => none

/-- `%d` alternative ` [1-9]` (space-padded single digit). -/
def pD5 : List Char → Option (Nat × List Char)
  | ' ' :: c :: r => if isNonzeroDigit c then some (dval c, r) else none
  | _ => none

/-- `%d`: day of month, alternatives in CPython's order. -/
def pDay (cs : List Char) : Option (Nat × List Char) :=
  pD1 cs <|> pD2 cs <|> pD3 cs <|> pD4 cs <|> pD5 cs

/-- `%H` alternative `2[0-3]`. -/
def pH1 : List Char → Option (Nat × List Char)
  | '2' :: c :: r => if '0' ≤ c && c ≤ '3' then some (20 + dval c, r) else none
  | _ => none

/-- `%H` alternative `[0-1]\d`. -/
def pH2 : List Char → Option (Nat × List Char)
  | c :: d :: r =>
    if (c == '0' || c == '1') && d.isDigit then some (dval c * 10 + dval d, r) else none
  | _ => none

/-- A single digit (`\d` fallback shared by `%H`, `%M`, `%S`). -/
def pDigit1 : List Char → Option (Nat × List Char)
  | c :: r => if c.isDigit then some (dval c, r) else none
  | _ => none

/-- `%H`: hour. -/
def pHour (cs : List Char) : Option (Nat × List Char) :=
  pH1 cs <|> pH2 cs <|> pDigit1 cs

/-- `%M`/`%S` alternative `[0-5]\d`. -/
def pM1 : List Char → Option (Nat × List Char)
  | c :: d :: r =>
    if ('0' ≤ c && c ≤ '5') && d.isDigit then some (dval c * 10 + dval d, r) else none
  | _ => none

/-- `%M`: minute. -/
def pMin (cs : List Char) : Option (Nat × List Char) :=
  pM1 cs <|> pDigit1 cs

/-- `%S` alternative `6[0-1]` (leap seconds in the `_strptime` pattern). -/
def pS1 : List Char → Option (Nat × List Char)
  | '6' :: c :: r => if c == '0' || c == '1' then some (60 + dval c, r) else none
  | _ => none

/-- `%S`: second. -/
def pSec (cs : List Char) : Option (Nat × List Char) :=
  pS1 cs <|> pM1 cs <|> pDigit1 cs

/-- `%Y`: exactly four digits. -/
def pYear : List Char → Option (Nat × List Char)
  | a :: b :: c :: d :: r =>
    if a.isDigit && b.isDigit && c.isDigit && d.isDigit then
      some (dval a * 1000 + dval b * 100 + dval c * 10 + dval d, r)
    else none
  | _ => none

/-- The full `'%a %b %d %H:%M:%S %Y'` parse, requiring all input to be
consumed (CPython raises on unconverted trailing data). Returns
`(year, month, day, hour, minute, second)`. -/
def strptimeParse (cs : List Char) : Option (Nat × Nat × Nat × Nat × Nat × Nat) := do
  let r1 ← pWeekday cs
  let r2 ← pWS1 r1
  let (mo, r3) ← pMonth r2
  let r4 ← pWS1 r3
  let (d, r5) ← pDay r4
  let r6 ← pWS1 r5
  let (h, r7) ← pHour r6
  let r8 ← pColon r7
  let (mi, r9) ← pMin r8
  let r10 ← pColon r9
  let (sec, r11) ← pSec r10
  let r12 ← pWS1 r11
  let (y, r13) ← pYear r12
  if r13 = [] then some (y, mo, d, h, mi, sec) else none

/-- Gregorian leap-year rule, as used by `datetime`. -/
def isLeap (y : Nat) : Bool := (y % 4 == 0 && y % 100 != 0) || y % 400 == 0

/-- Days in a month, as validated by the `datetime` constructor. -/
def daysInMonth (y m : Nat) : Nat :=
  if m = 2 then (if isLeap y then 29 else 28)
  else if m = 4 ∨ m = 6 ∨ m = 9 ∨ m = 11 then 30
  else 31

/-- The range checks of the `datetime.datetime` constructor
(`MINYEAR = 1`, `MAXYEAR = 9999`; seconds `0..59`, so the leap-second
values admitted by the `%S` pattern are rejected here). -/
def validDatetime (y mo d h mi s : Nat) : Prop :=
  1 ≤ y ∧ y ≤ 9999 ∧ 1 ≤ mo ∧ mo ≤ 12 ∧ 1 ≤ d ∧ d ≤ daysInMonth y mo ∧
    h ≤ 23 ∧ mi ≤ 59 ∧ s ≤ 59

instance (y mo d h mi s : Nat) : Decidable (validDatetime y mo d h mi s) := by
  unfold validDatetime; infer_instance

/-- The decimal digit character for `n % 10`. -/
def digitChar (n : Nat) : Char := Char.ofNat (48 + n % 10)

/-- `%02d` as a two-character list. -/
def d2 (n : Nat) : List Char := [digitChar (n / 10), digitChar n]

/-- `%04d` as a four-character list. -/
def d4 (n : Nat) : List Char :=
  [digitChar (n / 1000), digitChar (n / 100), digitChar (n / 10), digitChar n]

/-- `datetime.isoformat()` for a datetime with `microsecond == 0`:
`YYYY-MM-DDTHH:MM:SS`. -/
def isoformat (y mo d h mi s : Nat) : String :=
  String.mk (d4 y ++ '-' :: d2 mo ++ '-' :: d2 d ++ 'T' :: d2 h ++ ':' :: d2 mi ++ ':' :: d2 s)

/-- `_normdate`: `datetime.datetime.strptime(datestr, '%a %b %d %H:%M:%S %Y').isoformat()`.
A parse or range failure is the `ValueError` that `strptime`/`datetime`
raise. -/
def pynormdate (datestr : String) : Except PyErr String :=
  match strptimeParse datestr.data with
  | none => .error (.valueError "time data does not match format")
  | some (y, mo, d, h, mi, sec) =>
    if validDatetime y mo d h mi sec then .ok (isoformat y mo d h mi sec)
    else .error (.valueError "datetime field out of range")

/-! ## The locked-files pattern `_REGEX_LOCKED_FILES`

The module matches each normalized lock line against

```
(?P<pid>[0-9]+)\t+(?P<uid>[0-9]+)\t+(?P<denyMode>[A-Z_]+)\s+
(?P<access>[0-9xabcdef]+)\t+(?P<rw>[A-Z]+)\t+(?P<oplock>[A-Z_+]+)\t+
(?P<sharePath>[^\t]+)\t+(?P<filename>.+)\t+ <_DATE>
```

where `_DATE` joins, with single literal spaces, the alternations
`Mon|...|Sun`, `Jan|...|Dec`, the 32 two-character strings
`'%2d' % v` for `v` in `0..31`, `\d\d:\d\d:\d\d` and `20\d\d`.
`re.match` anchors at the start only, so trailing input after the year
is allowed.  The embedding is a backtracking matcher: every `+` piece
enumerates its candidate splits longest-first (greedy with
backtracking), exactly the order in which the `re` engine explores
them; each alternation of distinct fixed-width literals is matched by
its unique applicable branch. -/

/-- A record dict, as produced by the line parsers (`groupdict`-style). -/
abbrev PyDict := List (String × String)

/-- Candidate splits of a greedy `X+` piece: the nonempty prefixes of
the maximal run of `p`-characters, longest first, each with the
remaining input. -/
def plusSplits (p : Char → Bool) (cs : List Char) : List (List Char × List Char) :=
  (List.range (cs.takeWhile p).length).map
    (fun i => (cs.take ((cs.takeWhile p).length - i), cs.drop ((cs.takeWhile p).length - i)))

/-- Match one literal from an alternation list (first match wins; all
the alternations in `_DATE` consist of distinct same-length literals,
so at most one branch applies). -/
def litAlt (lits : List String) (cs : List Char) : Option (String × List Char) :=
  lits.findSome? (fun l =>
    if l.data.isPrefixOf cs then some (l, cs.drop l.data.length) else none)

/-- `\d\d:\d\d:\d\d` (the `_TIMEOFDAY` group). -/
def matchTOD : List Char → Option (String × List Char)
  | a :: b :: ':' :: c :: d :: ':' :: e :: f :: r =>
    if a.isDigit && b.isDigit && c.isDigit && d.isDigit && e.isDigit && f.isDigit then
      some (String.mk [a, b, ':', c, d, ':', e, f], r)
    else none
  | _ => none

/-- `20\d\d` (the `_YEAR` group), as a prefix match. -/
def matchYEARpref : List Char → Option (String × List Char)
  | '2' :: '0' :: c :: d :: r =>
    if c.isDigit && d.isDigit then some (String.mk ['2', '0', c, d], r) else none
  | _ => none

/-- A single literal space inside `_DATE`. -/
def matchSpace : List Char → Option (List Char)
  | ' ' :: r => some r
  | _ => none

/-- `[A-Z]`. -/
def isUpperAZ (c : Char) : Bool := 'A' ≤ c && c ≤ 'Z'

/-- `[A-Z_]` (deny mode). -/
def isDenyChar (c : Char) : Bool := isUpperAZ c || c == '_'

/-- `[0-9xabcdef]` (access mode). -/
def isAccessChar (c : Char) : Bool :=
  c.isDigit || c == 'x' || c == 'a' || c == 'b' || c == 'c' || c == 'd' || c == 'e' || c == 'f'

/-- `[A-Z_+]` (oplock). -/
def isOplockChar (c : Char) : Bool := isUpperAZ c || c == '_' || c == '+'

/-- `\t`. -/
def isTab (c : Char) : Bool := c == '\t'

/-- `[^\t]`. -/
def notTab (c : Char) : Bool := c != '\t'

/-- `.` without `DOTALL`: anything but a newline. -/
def notNL (c : Char) : Bool := c != '\n'

/-- The weekday alternation `_DAYSOFWEEK`. -/
def dowLits : List String := ["Mon", "Tue", "Wed", "Thu", "Fri", "Sat", "Sun"]

/-- The month alternation `_MONTHOFYEAR`. -/
def moyLits : List String :=
  ["Jan", "Feb", "Mar", "Apr", "May", "Jun", "Jul", "Aug", "Sep", "Oct", "Nov", "Dec"]

/-- `'%2d' % n` for `n < 100`: the decimal rendering space-padded to
width two. -/
def fmt2 (n : Nat) : String := if n < 10 then " " ++ toString n else toString n

/-- The day-of-month alternation `_DAYOFMONTH`:
`'|'.join('%2d' % value for value in xrange(32))`. -/
def domLits : List String := (List.range 32).map fmt2

/-- The named groups captured by `_REGEX_LOCKED_FILES`. -/
structure LockGroups where
  pid : String
  uid : String
  denyMode : String
  access : String
  rw : String
  oplock : String
  sharePath : String
  filename : String
  dow : String
  moy : String
  dom : String
  tod : String
  year : String
  deriving DecidableEq, Repr

/-- `_REGEX_LOCKED_FILES.match` on a normalized line: the first
successful assignment of all groups in the engine's backtracking
order, or `none`. -/
def lockMatch (cs : List Char) : Option LockGroups :=
  (plusSplits Char.isDigit cs).findSome? fun (pid, r1) =>
  (plusSplits isTab r1).findSome? fun (_, r2) =>
  (plusSplits Char.isDigit r2).findSome? fun (uid, r3) =>
  (plusSplits isTab r3).findSome? fun (_, r4) =>
  (plusSplits isDenyChar r4).findSome? fun (deny, r5) =>
  (plusSplits pyIsSpace r5).findSome? fun (_, r6) =>
  (plusSplits isAccessChar r6).findSome? fun (acc, r7) =>
  (plusSplits isTab r7).findSome? fun (_, r8) =>
  (plusSplits isUpperAZ r8).findSome? fun (rw, r9) =>
  (plusSplits isTab r9).findSome? fun (_, r10) =>
  (plusSplits isOplockChar r10).findSome? fun (opl, r11) =>
  (plusSplits isTab r11).findSome? fun (_, r12) =>
  (plusSplits notTab r12).findSome? fun (sp, r13) =>
  (plusSplits isTab r13).findSome? fun (_, r14) =>
  (plusSplits notNL r14).findSome? fun (fn, r15) =>
  (plusSplits isTab r15).findSome? fun (_, r16) =>
  (litAlt dowLits r16).bind fun (dow, r17) =>
  (matchSpace r17).bind fun r18 =>
  (litAlt moyLits r18).bind fun (moy, r19) =>
  (matchSpace r19).bind fun r20 =>
  (litAlt domLits r20).bind fun (dom, r21) =>
  (matchSpace r21).bind fun r22 =>
  (matchTOD r22).bind fun (tod, r23) =>
  (matchSpace r23).bind fun r24 =>
  (matchYEARpref r24).map fun (year, _) =>
  { pid := String.mk pid, uid := String.mk uid, denyMode := String.mk deny,
    access := String.mk acc, rw := String.mk rw, oplock := String.mk opl,
    sharePath := String.mk sp, filename := String.mk fn,
    dow := dow, moy := moy, dom := dom, tod := tod, year := year }

/-! ## Line filters and parsers -/

/-- `_STATUS_IGNORED_STARTS`. -/
def statusIgnoredStarts : List String :=
  ["Ignoring unknown parameter", "Unknown parameter encountered",
   "Processing section", "rlimit_max", "----------------"]

/-- `_LOCKS_IGNORED_STARTS`. -/
def locksIgnoredStarts : List String :=
  ["Locked files:", "----------------", "Pid", "No locked files"]

/-- `any(line.startswith(ignored) for ignored in ...)`. -/
def startsWithAny (lits : List String) (line : String) : Bool :=
  lits.any (fun p => pyStartswith p line)

/-- Emit a completed run of `pending` consecutive spaces: a single
space stays a space, two or more become one tab (`re.sub('  +', '\t', _)`). -/
def subMultiEmit (pending : Nat) (tail : List Char) : List Char :=
  if pending = 0 then tail else if pending = 1 then ' ' :: tail else '\t' :: tail

/-- Scanner for `subMulti`, tracking the length of the current space run. -/
def subMultiAux : Nat → List Char → List Char
  | pending, [] => subMultiEmit pending []
  | pending, c :: rest =>
    if c = ' ' then subMultiAux (pending + 1) rest
    else subMultiEmit pending (c :: subMultiAux 0 rest)

/-- `re.sub('  +', '\t', line)`: replace every maximal run of two or
more spaces by one tab character. -/
def subMulti (cs : List Char) : List Char := subMultiAux 0 cs

/-- The literal header row filtered by the shares parser. -/
def shareHeaderRow : List String := ["Service", "pid", "machine", "Connected", "at"]

/-- `_parse_share_line`: ignore banners, empty token lists and the
header row; otherwise build `{share, machine, date}` from tokens 0, 2
and the normalized join of tokens 3 onward.  A line with fewer than
three tokens raises `IndexError` (`split_line[2]`); a date that
`strptime` rejects raises `ValueError`. -/
def parseShareLine (_index : Nat) (line : String) : Except PyErr (Option PyDict) :=
  if startsWithAny statusIgnoredStarts line then .ok none
  else if pysplit line = [] then .ok none
  else if pysplit line = shareHeaderRow then .ok none
  else
    match (pysplit line)[0]? with
    | none => .error .indexError
    | some sh =>
      match (pysplit line)[2]? with
      | none => .error .indexError
      | some m =>
        match pynormdate (String.mk (joinSpace ((pysplit line).drop 3))) with
        | .error e => .error e
        | .ok date => .ok (some [("share", sh), ("machine", m), ("date", date)])

/-- `_parse_lock_line`: ignore blank lines and banners; normalize
multi-space runs to tabs; a line failing `_REGEX_LOCKED_FILES` is
ignored; on a match, build the group dict, replace the five date
groups by the normalized `date`, and replace `sharePath` by its
basename under the key `share`. -/
def parseLockLine (_index : Nat) (line : String) : Except PyErr (Option PyDict) :=
  if line = "" ∨ line = "\n" then .ok none
  else if startsWithAny locksIgnoredStarts line then .ok none
  else
    match lockMatch (subMulti line.data) with
    | none => .ok none
    | some g =>
      match pynormdate (g.dow ++ " " ++ g.moy ++ " " ++ g.dom ++ " " ++ g.tod ++ " " ++ g.year) with
      | .error e => .error e
      | .ok date =>
        .ok (some [("pid", g.pid), ("uid", g.uid), ("denyMode", g.denyMode),
          ("access", g.access), ("rw", g.rw), ("oplock", g.oplock),
          ("filename", g.filename), ("date", date), ("share", basename g.sharePath)])

/-! ## Whole-field acceptance of the `_DATE` component patterns

`dateFieldsAccept` states, field by field, which values each trailing
date group of `_REGEX_LOCKED_FILES` can take: the groups are built
from the alternation lists `dowLits`/`moyLits`/`domLits` and the
fixed-width digit patterns also used by `lockMatch` above. -/

/-- Whole-string acceptance of the weekday alternation. -/
def dowAccept (s : String) : Bool := dowLits.any (fun l => l == s)

/-- Whole-string acceptance of the month alternation. -/
def moyAccept (s : String) : Bool := moyLits.any (fun l => l == s)

/-- Whole-string acceptance of the day-of-month alternation. -/
def domAccept (s : String) : Bool := domLits.any (fun l => l == s)

/-- Whole-string shape `\d\d:\d\d:\d\d`. -/
def todShapeL : List Char → Bool
  | [a, b, ':', c, d, ':', e, f] =>
    a.isDigit && b.isDigit && c.isDigit && d.isDigit && e.isDigit && f.isDigit
  | _ => false

/-- Whole-string acceptance of the `_TIMEOFDAY` pattern. -/
def todAccept (s : String) : Bool := todShapeL s.data

/-- Whole-string shape `20\d\d`. -/
def yearShapeL : List Char → Bool
  | ['2', '0', c, d] => c.isDigit && d.isDigit
  | _ => false

/-- Whole-string acceptance of the `_YEAR` pattern. -/
def yearAccept (s : String) : Bool := yearShapeL s.data

/-- Acceptance of a full assignment of the five trailing date fields. -/
def dateFieldsAccept (dow moy dom tod year : String) : Bool :=
  dowAccept dow && moyAccept moy && domAccept dom && todAccept tod && yearAccept year

/-! ## Host environment and command runner -/

/-- Result of `__salt__['cmd.run_all'](...)`: the fields the module
reads. -/
structure CmdResult where
  retcode : Int
  stderr : String
  stdout : String
  deriving DecidableEq, Repr

/-- One entry of the mapping returned by `__salt__['disk.usage']()`:
the fields the module reads (`'1K-blocks'` is `oneKBlocks`). -/
structure SpaceRaw where
  used : Int
  available : Int
  oneKBlocks : Int
  deriving DecidableEq, Repr

/-- One value of the `disk_usage` mapping built by `_avail_space`. -/
structure SpaceEntry where
  used : Int
  available : Int
  total : Int
  deriving DecidableEq, Repr

/-- The value returned by `_avail_space`. -/
structure AvailSpace where
  mount_points : List (String × String)
  disk_usage : List (String × SpaceEntry)
  deriving DecidableEq, Repr

/-- One value of the `status` mapping: `_share_item_skel()` filled in. -/
structure ShareUsage where
  machines : List PyDict
  locked_files : List PyDict
  deriving DecidableEq, Repr

/-- `_share_item_skel()`. -/
def shareItemSkel : ShareUsage := { machines := [], locked_files := [] }

/-- The dict returned by `stats`: `{'in_error': True}` is encoded with
both optional keys absent; the success dict carries both. -/
structure Report where
  in_error : Bool
  status : Option (List (String × ShareUsage))
  avail_space : Option AvailSpace
  deriving DecidableEq, Repr

/-- The host services behind `__salt__` reached in one run, plus the
decoded contents of the smbstatus output files. `runCmd`/`readLines`
are keyed by the subcommand string (`"shares"` or `"locks"`). -/
structure Env where
  runCmd : String → CmdResult
  readLines : String → List String
  sambaDirs : List String
  statCmd : String → CmdResult
  diskUsage : List (String × SpaceRaw)

/-- `_smbstatus_cmd`: raise `SmbstatusError(stderr)` on a non-zero exit
status, otherwise return the decoded lines of the output file. -/
def smbstatusCmd (env : Env) (command : String) : Except PyErr (List String) :=
  if (env.runCmd command).retcode ≠ 0 then
    .error (.smbstatusError (env.runCmd command).stderr)
  else .ok (env.readLines command)

/-! ## The data generator `_smbstatus_data` -/

/-- The message of the length assertion (the module interpolates the
offending value; the text is irrelevant to the control flow). -/
def assertDateMsg : String := "len is not 19"

/-- `value.pop('share')`: `KeyError` when absent. -/
def popShare (r : PyDict) : Except PyErr (Option (String × PyDict)) :=
  match dictLookup r "share" with
  | some sh => .ok (some (sh, dictRemove r "share"))
  | none => .error (.keyError "share")

/-- One step of `_smbstatus_data`: parse the line; on a record, check
the length-19 assertion on a `date` field, then pop `share` and yield
the pair. -/
def lineYield (lineFn : Nat → String → Except PyErr (Option PyDict)) (i : Nat)
    (l : String) : Except PyErr (Option (String × PyDict)) :=
  match lineFn i l with
  | .error e => .error e
  | .ok none => .ok none
  | .ok (some r) =>
    match dictLookup r "date" with
    | some d =>
      if d.length = 19 then popShare r else .error (.assertionError assertDateMsg)
    | none => popShare r

/-- The (share, record) pairs produced by `_smbstatus_data` over the
enumerated lines; an exception anywhere aborts the traversal. -/
def collectPairs (lineFn : Nat → String → Except PyErr (Option PyDict)) :
    Nat → List String → Except PyErr (List (String × PyDict))
  | _, [] => .ok []
  | i, l :: ls =>
    match lineYield lineFn i l with
    | .error e => .error e
    | .ok none => collectPairs lineFn (i + 1) ls
    | .ok (some pr) =>
      match collectPairs lineFn (i + 1) ls with
      | .error e => .error e
      | .ok prs => .ok (pr :: prs)

/-- `_smbstatus_data(command, line_parser)`: run the command, then
parse every output line. -/
def smbstatusData (env : Env) (command : String)
    (lineFn : Nat → String → Except PyErr (Option PyDict)) :
    Except PyErr (List (String × PyDict)) :=
  match smbstatusCmd env command with
  | .error e => .error e
  | .ok lines => collectPairs lineFn 0 lines

/-! ## The disk-usage collector `_avail_space` -/

/-- The first loop of `_avail_space`: resolve every configured
directory to its mount point via `stat -c '%m'`; a failing query
raises `SmbstatusError(stderr)`. -/
def resolveMounts (env : Env) :
    List String → List (String × String) → Except PyErr (List (String × String))
  | [], acc => .ok acc
  | dir :: rest, acc =>
    if (env.statCmd dir).retcode ≠ 0 then .error (.smbstatusError (env.statCmd dir).stderr)
    else resolveMounts env rest (dictInsert acc dir (pystrip (env.statCmd dir).stdout))

/-- Deduplication scanner (`set(directory_to_mount_point.values())`;
the set's iteration order is unspecified in Python, this model keeps
first occurrences). -/
def dedupAux (seen : List String) : List String → List String
  | [] => []
  | x :: xs => if seen.contains x then dedupAux seen xs else x :: dedupAux (x :: seen) xs

/-- `set(...)` of a value list. -/
def pyDedup (l : List String) : List String := dedupAux [] l

/-- The second loop of `_avail_space`: `space_data[mount_point]` —
a missing mount point raises `KeyError`, not `SmbstatusError`. -/
def buildSpaceInfo (du : List (String × SpaceRaw)) :
    List String → List (String × SpaceEntry) → Except PyErr (List (String × SpaceEntry))
  | [], acc => .ok acc
  | mp :: rest, acc =>
    match dictLookup du mp with
    | none => .error (.keyError mp)
    | some info =>
      buildSpaceInfo du rest
        (dictInsert acc mp { used := info.used, available := info.available, total := info.oneKBlocks })

/-- `_avail_space()`. -/
def availSpace (env : Env) : Except PyErr AvailSpace :=
  match resolveMounts env env.sambaDirs [] with
  | .error e => .error e
  | .ok d2mp =>
    match buildSpaceInfo env.diskUsage (pyDedup (d2mp.map Prod.snd)) [] with
    | .error e => .error e
    | .ok si => .ok { mount_points := d2mp, disk_usage := si }

/-! ## The report assembler `stats` -/

/-- `collections.defaultdict(_share_item_skel)` access-and-update:
create the entry on first reference, then apply the mutation. -/
def ddUpdate (d : List (String × ShareUsage)) (k : String) (f : ShareUsage → ShareUsage) :
    List (String × ShareUsage) :=
  if d.any (fun p => p.1 == k) then d.map (fun p => if p.1 == k then (p.1, f p.2) else p)
  else d ++ [(k, f shareItemSkel)]

/-- Append one connection record to a `ShareUsage`. -/
def machAdd (it : PyDict) (su : ShareUsage) : ShareUsage :=
  { su with machines := su.machines ++ [it] }

/-- Append one lock record to a `ShareUsage`. -/
def lockAdd (it : PyDict) (su : ShareUsage) : ShareUsage :=
  { su with locked_files := su.locked_files ++ [it] }

/-- `used_shares[share]['machines'].append(item)`. -/
def addMachine (d : List (String × ShareUsage)) (k : String) (it : PyDict) :
    List (String × ShareUsage) :=
  ddUpdate d k (machAdd it)

/-- `used_shares[share]['locked_files'].append(item)`. -/
def addLock (d : List (String × ShareUsage)) (k : String) (it : PyDict) :
    List (String × ShareUsage) :=
  ddUpdate d k (lockAdd it)

/-- The two folding loops of `stats`: all shares pairs, then all locks
pairs. -/
def foldPairs (xs ys : List (String × PyDict)) : List (String × ShareUsage) :=
  ys.foldl (fun d p => addLock d p.1 p.2) (xs.foldl (fun d p => addMachine d p.1 p.2) [])

/-- `{'in_error': True}`. -/
def errorReport : Report := { in_error := true, status := none, avail_space := none }

/-- The successful report dict. -/
def fullReport (st : List (String × ShareUsage)) (av : AvailSpace) : Report :=
  { in_error := false, status := some st, avail_space := some av }

/-- `stats()`: any `SmbstatusError` from the two data streams or the
disk-usage step degrades the report to `{'in_error': True}`; any other
exception propagates out uncaught. -/
def stats (env : Env) : Except PyErr Report :=
  match smbstatusData env "shares" parseShareLine with
  | .error (.smbstatusError _) => .ok errorReport
  | .error e => .error e
  | .ok xs =>
    match smbstatusData env "locks" parseLockLine with
    | .error (.smbstatusError _) => .ok errorReport
    | .error e => .error e
    | .ok ys =>
      match availSpace env with
      | .error (.smbstatusError _) => .ok errorReport
      | .error e => .error e
      | .ok av => .ok (fullReport (foldPairs xs ys) av)

/-! ## Concrete run environments used to exercise the model -/

/-- A well-formed locks output line (tab-separated, with one doubled
space before the access column, as smbstatus pads it). -/
def lockLineEx : String :=
  "123\t45\tDENY_NONE  0x12\tRDONLY\tNONE\t/tmp/s\tf.txt\tWed Jan 10 12:30:05 2015\n"

/-- A run in which the `shares` subprocess exits with status 1. -/
def envCmdFail : Env where
  runCmd := fun c => if c = "shares" then ⟨1, "smbstatus failed", ""⟩ else ⟨0, "", ""⟩
  readLines := fun _ => []
  sambaDirs := ["/mnt/samba"]
  statCmd := fun _ => ⟨0, "", "/mnt\n"⟩
  diskUsage := [("/mnt", ⟨10, 20, 30⟩)]

/-- A run in which the configured directory resolves to a mount point
absent from the disk-usage data. -/
def envMissingMount : Env where
  runCmd := fun _ => ⟨0, "", ""⟩
  readLines := fun _ => []
  sambaDirs := ["/mnt/samba"]
  statCmd := fun _ => ⟨0, "", "/mnt\n"⟩
  diskUsage := []

/-- A run with two configured directories on the same mount point. -/
def envSharedMount : Env where
  runCmd := fun _ => ⟨0, "", ""⟩
  readLines := fun _ => []
  sambaDirs := ["/mnt/a", "/mnt/b"]
  statCmd := fun _ => ⟨0, "", "/mnt\n"⟩
  diskUsage := [("/mnt", ⟨10, 20, 30⟩)]

/-- A fully successful run: one share connection and one file lock. -/
def envReport : Env where
  runCmd := fun _ => ⟨0, "", ""⟩
  readLines := fun c =>
    if c = "shares" then ["pub 101 client1 Wed Jan 07 14:23:59 2015\n"] else [lockLineEx]
  sambaDirs := []
  statCmd := fun _ => ⟨0, "", ""⟩
  diskUsage := []

/-- The connection record of `envReport`'s share line, as stored. -/
def shareRecEx : PyDict := [("machine", "client1"), ("date", "2015-01-07T14:23:59")]

/-- The lock record of `envReport`'s lock line, as stored. -/
def lockRecEx : PyDict :=
  [("pid", "123"), ("uid", "45"), ("denyMode", "DENY_NONE"), ("access", "0x12"),
   ("rw", "RDONLY"), ("oplock", "NONE"), ("filename", "f.txt"),
   ("date", "2015-01-10T12:30:05")]

/-- The (share, record) pairs of `envReport`'s shares stream. -/
def sharesPairsEx : List (String × PyDict) := [("pub", shareRecEx)]

/-- The (share, record) pairs of `envReport`'s locks stream. -/
def locksPairsEx : List (String × PyDict) := [("s", lockRecEx)]

/-- The `status` mapping of `envReport`'s report. -/
def statusReportEx : List (String × ShareUsage) :=
  [("pub", { machines := [shareRecEx], locked_files := [] }),
   ("s", { machines := [], locked_files := [lockRecEx] })]

/-- The empty disk-usage result of `envReport`. -/
def availEmptyEx : AvailSpace := { mount_points := [], disk_usage := [] }

/-- The disk-usage result of `envSharedMount`. -/
def availSharedEx : AvailSpace :=
  { mount_points := [("/mnt/a", "/mnt"), ("/mnt/b", "/mnt")],
    disk_usage := [("/mnt", { used := 10, available := 20, total := 30 })] }

/-! ## Basic facts about the date normalizer -/

/-- The ISO format always prints 4+2+2+2+2+2 digits and 5 separators. -/
theorem isoformat_length (y mo d h mi s : Nat) : (isoformat y mo d h mi s).length = 19 := rfl

/-- Every string `_normdate` returns has length exactly 19. -/
theorem pynormdate_ok_length {s t : String} (h : pynormdate s = .ok t) : t.length = 19 := by
  unfold pynormdate at h
  split at h
  · simp at h
  · split at h
    · cases h
      exact isoformat_length _ _ _ _ _ _
    · simp at h

/-- `_normdate` can only raise `ValueError`. -/
theorem pynormdate_error_shape {s : String} {e : PyErr} (h : pynormdate s = .error e) :
    ∃ m, e = .valueError m := by
  unfold pynormdate at h
  split at h
  · cases h
    exact ⟨_, rfl⟩
  · split at h
    · simp at h
    · cases h
      exact ⟨_, rfl⟩

/-! ## Shape of the records built by the two line parsers -/

/-- A record returned by the shares parser is exactly
`{share, machine, date}` with the date produced by `_normdate`. -/
theorem parseShareLine_ok_some {i : Nat} {line : String} {r : PyDict}
    (h : parseShareLine i line = .ok (some r)) :
    ∃ sh m dt, r = [("share", sh), ("machine", m), ("date", dt)] ∧
      pynormdate (String.mk (joinSpace ((pysplit line).drop 3))) = .ok dt := by
  unfold parseShareLine at h
  split at h
  · simp at h
  split at h
  · simp at h
  split at h
  · simp at h
  split at h
  · simp at h
  rename_i sh h0
  split at h
  · simp at h
  rename_i m h2
  split at h
  · simp at h
  rename_i dt hn
  simp at h
  exact ⟨sh, m, dt, h.symm, hn⟩

/-- The shares parser can only raise `IndexError` (fewer than three
tokens) or `ValueError` (from `_normdate`). -/
theorem parseShareLine_error_shape {i : Nat} {line : String} {e : PyErr}
    (h : parseShareLine i line = .error e) :
    e = .indexError ∨ ∃ m, e = .valueError m := by
  unfold parseShareLine at h
  split at h
  · simp at h
  split at h
  · simp at h
  split at h
  · simp at h
  split at h
  · cases h
    exact Or.inl rfl
  split at h
  · cases h
    exact Or.inl rfl
  rename_i m h2
  split at h
  · rename_i e' hn
    cases h
    exact Or.inr (pynormdate_error_shape hn)
  · simp at h

/-- A record returned by the locks parser is exactly the group dict
with the `date` substituted and `sharePath` renamed to `share`. -/
theorem parseLockLine_ok_some {i : Nat} {line : String} {r : PyDict}
    (h : parseLockLine i line = .ok (some r)) :
    ∃ g dt, lockMatch (subMulti line.data) = some g ∧
      pynormdate (g.dow ++ " " ++ g.moy ++ " " ++ g.dom ++ " " ++ g.tod ++ " " ++ g.year) = .ok dt ∧
      r = [("pid", g.pid), ("uid", g.uid), ("denyMode", g.denyMode), ("access", g.access),
           ("rw", g.rw), ("oplock", g.oplock), ("filename", g.filename), ("date", dt),
           ("share", basename g.sharePath)] := by
  unfold parseLockLine at h
  split at h
  · simp at h
  split at h
  · simp at h
  split at h
  · simp at h
  rename_i g hm
  split at h
  · simp at h
  rename_i dt hn
  simp at h
  exact ⟨g, dt, hm, hn, h.symm⟩

/-- The locks parser can only raise `ValueError` (from `_normdate`). -/
theorem parseLockLine_error_shape {i : Nat} {line : String} {e : PyErr}
    (h : parseLockLine i line = .error e) : ∃ m, e = .valueError m := by
  unfold parseLockLine at h
  split at h
  · simp at h
  split at h
  · simp at h
  split at h
  · simp at h
  rename_i g hm
  split at h
  · rename_i e' hn
    cases h
    exact pynormdate_error_shape hn
  · simp at h

/-- The `date` field of any record either parser yields has length 19. -/
theorem record_date_length {i : Nat} {l : String} {r : PyDict} {d : String}
    (h : parseShareLine i l = .ok (some r) ∨ parseLockLine i l = .ok (some r))
    (hd : dictLookup r "date" = some d) : d.length = 19 := by
  rcases h with h | h
  · obtain ⟨sh, m, dt, rfl, hn⟩ := parseShareLine_ok_some h
    have hlook : dictLookup [("share", sh), ("machine", m), ("date", dt)] "date" = some dt := rfl
    rw [hlook] at hd
    cases hd
    exact pynormdate_ok_length hn
  · obtain ⟨g, dt, _, hn, rfl⟩ := parseLockLine_ok_some h
    have hlook : dictLookup [("pid", g.pid), ("uid", g.uid), ("denyMode", g.denyMode),
        ("access", g.access), ("rw", g.rw), ("oplock", g.oplock), ("filename", g.filename),
        ("date", dt), ("share", basename g.sharePath)] "date" = some dt := rfl
    rw [hlook] at hd
    cases hd
    exact pynormdate_ok_length hn

/-! ## Facts about the data generator -/

/-- A successful `pop('share')` returns the share value and the rest. -/
theorem popShare_ok_some {r : PyDict} {pr : String × PyDict}
    (h : popShare r = .ok (some pr)) :
    dictLookup r "share" = some pr.1 ∧ pr.2 = dictRemove r "share" := by
  unfold popShare at h
  split at h
  · rename_i sh hs
    cases h
    exact ⟨hs, rfl⟩
  · simp at h

/-- `pop('share')` can only raise `KeyError 'share'`. -/
theorem popShare_error_shape {r : PyDict} {e : PyErr} (h : popShare r = .error e) :
    e = .keyError "share" := by
  unfold popShare at h
  split at h
  · simp at h
  · cases h
    rfl

/-- A yielded pair comes from a parsed record with its `share` popped. -/
theorem lineYield_ok_some {lineFn : Nat → String → Except PyErr (Option PyDict)}
    {i : Nat} {l : String} {pr : String × PyDict}
    (h : lineYield lineFn i l = .ok (some pr)) :
    ∃ r, lineFn i l = .ok (some r) ∧ dictLookup r "share" = some pr.1 ∧
      pr.2 = dictRemove r "share" := by
  unfold lineYield at h
  split at h
  · simp at h
  · simp at h
  · rename_i r hr
    split at h
    · rename_i d hd
      split at h
      · obtain ⟨h1, h2⟩ := popShare_ok_some h
        exact ⟨r, hr, h1, h2⟩
      · simp at h
    · obtain ⟨h1, h2⟩ := popShare_ok_some h
      exact ⟨r, hr, h1, h2⟩

/-- If the parser cannot raise `AssertionError` and every parsed `date`
field has length 19, one generator step never raises `AssertionError`. -/
theorem lineYield_no_assert {lineFn : Nat → String → Except PyErr (Option PyDict)}
    {i : Nat} {l : String} {m : String}
    (h1 : ∀ e, lineFn i l = .error e → ∀ m', e ≠ .assertionError m')
    (h2 : ∀ r d, lineFn i l = .ok (some r) → dictLookup r "date" = some d → d.length = 19) :
    lineYield lineFn i l ≠ .error (.assertionError m) := by
  intro hEq
  unfold lineYield at hEq
  split at hEq
  · rename_i e he
    cases hEq
    exact h1 _ he m rfl
  · simp at hEq
  · rename_i r hr
    split at hEq
    · rename_i d hd
      rw [if_pos (h2 r d hr hd)] at hEq
      exact absurd (popShare_error_shape hEq) (by simp)
    · exact absurd (popShare_error_shape hEq) (by simp)

/-- Under the same conditions, the whole traversal never raises
`AssertionError`. -/
theorem collectPairs_no_assert {lineFn : Nat → String → Except PyErr (Option PyDict)}
    (h1 : ∀ i l e, lineFn i l = .error e → ∀ m, e ≠ .assertionError m)
    (h2 : ∀ i l r d, lineFn i l = .ok (some r) → dictLookup r "date" = some d → d.length = 19) :
    ∀ (ls : List String) (i : Nat) (m : String),
      collectPairs lineFn i ls ≠ .error (.assertionError m)
  | [], i, m => by simp [collectPairs]
  | l :: ls, i, m => by
    intro hEq
    unfold collectPairs at hEq
    split at hEq
    · rename_i e hy
      cases hEq
      exact lineYield_no_assert (h1 i l) (h2 i l) hy
    · exact collectPairs_no_assert h1 h2 ls (i + 1) m hEq
    · rename_i pr0 hy
      split at hEq
      · rename_i e hc
        cases hEq
        exact collectPairs_no_assert h1 h2 ls (i + 1) m hc
      · simp at hEq

/-- Every pair of a successful traversal is a parsed record with its
`share` key popped. -/
theorem collectPairs_mem {lineFn : Nat → String → Except PyErr (Option PyDict)} :
    ∀ (ls : List String) (i : Nat) (prs : List (String × PyDict)),
      collectPairs lineFn i ls = .ok prs →
      ∀ pr ∈ prs, ∃ j l r, lineFn j l = .ok (some r) ∧
        dictLookup r "share" = some pr.1 ∧ pr.2 = dictRemove r "share"
  | [], _, prs, h => by
    cases h
    intro pr hpr
    simp at hpr
  | l :: ls, i, prs, h => by
    unfold collectPairs at h
    split at h
    · simp at h
    · exact collectPairs_mem ls (i + 1) prs h
    · rename_i pr0 hy
      split at h
      · simp at h
      · rename_i prs' hc
        cases h
        intro pr hpr
        rcases List.mem_cons.1 hpr with rfl | hpr'
        · obtain ⟨r, hr, hs, he⟩ := lineYield_ok_some hy
          exact ⟨i, l, r, hr, hs, he⟩
        · exact collectPairs_mem ls (i + 1) prs' hc pr hpr'

/-- The command runner can only raise `SmbstatusError`. -/
theorem smbstatusCmd_error_shape {env : Env} {cmd : String} {e : PyErr}
    (h : smbstatusCmd env cmd = .error e) : ∃ m, e = .smbstatusError m := by
  unfold smbstatusCmd at h
  split at h
  · cases h
    exact ⟨_, rfl⟩
  · simp at h

/-- A successful `_smbstatus_data` run is the traversal of the decoded
output lines. -/
theorem smbstatusData_ok_collect {env : Env} {cmd : String}
    {lineFn : Nat → String → Except PyErr (Option PyDict)} {prs : List (String × PyDict)}
    (h : smbstatusData env cmd lineFn = .ok prs) :
    collectPairs lineFn 0 (env.readLines cmd) = .ok prs := by
  unfold smbstatusData at h
  split at h
  · simp at h
  · rename_i lines hl
    unfold smbstatusCmd at hl
    split at hl
    · simp at hl
    · cases hl
      exact h

/-- `_smbstatus_data` never raises `AssertionError` when fed a parser
that satisfies the date-length contract. -/
theorem smbstatusData_no_assert {env : Env} {cmd : String}
    {lineFn : Nat → String → Except PyErr (Option PyDict)}
    (h1 : ∀ i l e, lineFn i l = .error e → ∀ m, e ≠ .assertionError m)
    (h2 : ∀ i l r d, lineFn i l = .ok (some r) → dictLookup r "date" = some d → d.length = 19)
    (m : String) : smbstatusData env cmd lineFn ≠ .error (.assertionError m) := by
  intro hEq
  unfold smbstatusData at hEq
  split at hEq
  · rename_i e he
    cases hEq
    obtain ⟨m', hm'⟩ := smbstatusCmd_error_shape he
    simp at hm'
  · exact collectPairs_no_assert h1 h2 _ 0 m hEq

/-- The shares parser never raises `AssertionError`. -/
theorem parseShareLine_no_assert :
    ∀ (i : Nat) (l : String) (e : PyErr),
      parseShareLine i l = .error e → ∀ m, e ≠ .assertionError m := by
  intro i l e h m
  rcases parseShareLine_error_shape h with rfl | ⟨m', rfl⟩ <;> simp

/-- The locks parser never raises `AssertionError`. -/
theorem parseLockLine_no_assert :
    ∀ (i : Nat) (l : String) (e : PyErr),
      parseLockLine i l = .error e → ∀ m, e ≠ .assertionError m := by
  intro i l e h m
  obtain ⟨m', rfl⟩ := parseLockLine_error_shape h
  simp

/-- C5: every record produced by either line parser that contains a
`date` field carries a date string of length exactly 19
(`YYYY-MM-DDTHH:MM:SS` from the normalizer), so the length-19
assertion in the data generator `_smbstatus_data` holds for every
yielded record and its error branch is unreachable: the generator
never raises `AssertionError` for either subcommand. -/
theorem claim5_date_length_19 :
    (∀ i l r d, (parseShareLine i l = .ok (some r) ∨ parseLockLine i l = .ok (some r)) →
      dictLookup r "date" = some d → d.length = 19) ∧
    (∀ env m, smbstatusData env "shares" parseShareLine ≠ .error (.assertionError m) ∧
      smbstatusData env "locks" parseLockLine ≠ .error (.assertionError m)) := by
  refine ⟨fun i l r d h hd => record_date_length h hd, fun env m => ⟨?_, ?_⟩⟩
  · exact smbstatusData_no_assert parseShareLine_no_assert
      (fun i l r d h hd => record_date_length (Or.inl h) hd) m
  · exact smbstatusData_no_assert parseLockLine_no_assert
      (fun i l r d h hd => record_date_length (Or.inr h) hd) m

/-- Witness for C5: a concrete share line parses to a record whose
date string has length 19. -/
theorem claim5_witness :
    parseShareLine 0 "pub 101 client1 Wed Jan 07 14:23:59 2015\n" =
      .ok (some [("share", "pub"), ("machine", "client1"), ("date", "2015-01-07T14:23:59")]) ∧
    ("2015-01-07T14:23:59" : String).length = 19 :=
  ⟨by decide,
   claim5_date_length_19.1 0 "pub 101 client1 Wed Jan 07 14:23:59 2015\n"
     [("share", "pub"), ("machine", "client1"), ("date", "2015-01-07T14:23:59")]
     "2015-01-07T14:23:59" (Or.inl (by decide)) (by decide)⟩

/-- C6: the date normalizer maps the input "Wed Jan 07 14:23:59 2015"
to exactly "2015-01-07T14:23:59", an ISO-8601 local-time string with
second precision and no timezone offset. -/
theorem claim6_normdate_roundtrip :
    pynormdate "Wed Jan 07 14:23:59 2015" = .ok "2015-01-07T14:23:59" := by decide

/-- C7: a non-blank lock line that does not start with a filtered
banner prefix and whose whitespace-normalized form fails the fixed
positional pattern is ignored — the locks parser returns `None` and
raises no exception. -/
theorem claim7_unparseable_lock_line_ignored :
    ∀ (i : Nat) (line : String), line ≠ "" → line ≠ "\n" →
      startsWithAny locksIgnoredStarts line = false →
      lockMatch (subMulti line.data) = none →
      parseLockLine i line = .ok none := by
  intro i line h1 h2 h3 h4
  unfold parseLockLine
  rw [if_neg (by simp [h1, h2]), if_neg (by simp [h3]), h4]

/-- Witness for C7: a concrete malformed lock line is ignored. -/
theorem claim7_witness : parseLockLine 3 "zzz unparseable\n" = .ok none :=
  claim7_unparseable_lock_line_ignored 3 "zzz unparseable\n" (by decide) (by decide)
    (by decide) (by decide)

/-- C10: a line that passes the share-line filters but splits into
fewer than three tokens makes the shares parser raise IndexError
(out-of-range index on the token list) instead of returning `None`:
"foo bar" is such a line, so the shares parser is not total on
filter-passing lines. -/
theorem claim10_short_share_line_raises :
    parseShareLine 0 "foo bar" = .error .indexError := by decide

/-! ## Characterization of the `_DATE` field patterns -/

/-- An alternation of literals accepts exactly its members. -/
theorem anyEq_iff_mem {lits : List String} {s : String} :
    (lits.any (fun l => l == s)) = true ↔ s ∈ lits := by
  rw [List.any_eq_true]
  constructor
  · rintro ⟨l, hl, hleq⟩
    rw [beq_iff_eq] at hleq
    exact hleq ▸ hl
  · intro hs
    exact ⟨s, hs, beq_self_eq_true s⟩

/-- The weekday field accepts exactly the seven abbreviations. -/
theorem dowAccept_iff {s : String} : dowAccept s = true ↔ s ∈ dowLits := anyEq_iff_mem

/-- The month field accepts exactly the twelve abbreviations. -/
theorem moyAccept_iff {s : String} : moyAccept s = true ↔ s ∈ moyLits := anyEq_iff_mem

/-- The day-of-month field accepts exactly the `'%2d'` renderings of
0..31. -/
theorem domAccept_iff {s : String} : domAccept s = true ↔ ∃ v, v ≤ 31 ∧ s = fmt2 v := by
  rw [show domAccept s = (domLits.any (fun l => l == s)) from rfl, anyEq_iff_mem]
  unfold domLits
  rw [List.mem_map]
  constructor
  · rintro ⟨v, hv, rfl⟩
    exact ⟨v, Nat.lt_succ_iff.1 (List.mem_range.1 hv), rfl⟩
  · rintro ⟨v, hv, rfl⟩
    exact ⟨v, List.mem_range.2 (Nat.lt_succ_iff.2 hv), rfl⟩

/-- The time-of-day field accepts exactly the digit-pair shapes. -/
theorem todShapeL_iff {l : List Char} : todShapeL l = true ↔
    ∃ a b c d e f, a.isDigit ∧ b.isDigit ∧ c.isDigit ∧ d.isDigit ∧ e.isDigit ∧ f.isDigit ∧
      l = [a, b, ':', c, d, ':', e, f] := by
  constructor
  · intro h
    rw [todShapeL.eq_def] at h
    split at h
    · rename_i a b c d e f
      simp only [Bool.and_eq_true] at h
      obtain ⟨⟨⟨⟨⟨ha, hb⟩, hc⟩, hd⟩, he⟩, hf⟩ := h
      exact ⟨a, b, c, d, e, f, ha, hb, hc, hd, he, hf, rfl⟩
    · simp at h
  · rintro ⟨a, b, c, d, e, f, ha, hb, hc, hd, he, hf, rfl⟩
    simp [todShapeL, ha, hb, hc, hd, he, hf]

/-- The year field accepts exactly `20` followed by two digits. -/
theorem yearShapeL_iff {l : List Char} : yearShapeL l = true ↔
    ∃ c d, c.isDigit ∧ d.isDigit ∧ l = ['2', '0', c, d] := by
  constructor
  · intro h
    rw [yearShapeL.eq_def] at h
    split at h
    · rename_i c d
      simp only [Bool.and_eq_true] at h
      exact ⟨c, d, h.1, h.2, rfl⟩
    · simp at h
  · rintro ⟨c, d, hc, hd, rfl⟩
    simp [yearShapeL, hc, hd]

/-- C4 (amended): the trailing date fields of the lock-line pattern
accept exactly: the seven weekday abbreviations, the twelve month
abbreviations, a day-of-month written as the two-character
right-aligned decimal of a value 0 through 31 (the leading space is
mandatory for single digits and day 0 is accepted), three
colon-separated digit pairs for the time, and a year of the form `20`
followed by two digits (2000–2099) rather than an arbitrary four-digit
year. -/
theorem claim4_amended (dow moy dom tod year : String) :
    dateFieldsAccept dow moy dom tod year = true ↔
      (dow ∈ dowLits ∧ moy ∈ moyLits ∧ (∃ v, v ≤ 31 ∧ dom = fmt2 v) ∧
       (∃ a b c d e f : Char, a.isDigit ∧ b.isDigit ∧ c.isDigit ∧ d.isDigit ∧ e.isDigit ∧
          f.isDigit ∧ tod.data = [a, b, ':', c, d, ':', e, f]) ∧
       (∃ c d : Char, c.isDigit ∧ d.isDigit ∧ year.data = ['2', '0', c, d])) := by
  unfold dateFieldsAccept
  simp only [Bool.and_eq_true]
  rw [dowAccept_iff, moyAccept_iff, domAccept_iff,
    show todAccept tod = todShapeL tod.data from rfl, todShapeL_iff,
    show yearAccept year = yearShapeL year.data from rfl, yearShapeL_iff]
  constructor
  · rintro ⟨⟨⟨⟨h1, h2⟩, h3⟩, h4⟩, h5⟩
    exact ⟨h1, h2, h3, h4, h5⟩
  · rintro ⟨h1, h2, h3, h4, h5⟩
    exact ⟨⟨⟨⟨h1, h2⟩, h3⟩, h4⟩, h5⟩

/-- Counterexample for C4 as stated: the four-digit year "1999" is
rejected, day " 0" (outside 1..31) is accepted, and day "7" (in 1..31
but without the mandatory leading space) is rejected. -/
theorem claim4_counterexample :
    dateFieldsAccept "Wed" "Jan" " 7" "14:23:59" "1999" = false ∧
    ("1999".data.all Char.isDigit = true ∧ "1999".length = 4) ∧
    dateFieldsAccept "Wed" "Jan" " 0" "14:23:59" "2015" = true ∧
    dateFieldsAccept "Wed" "Jan" "7" "14:23:59" "2015" = false := by decide

/-! ## Dict, set and defaultdict lemmas -/

/-- Assignment always leaves the assigned binding in the dict. -/
theorem mem_dictInsert_self {α : Type} (d : List (String × α)) (k : String) (v : α) :
    (k, v) ∈ dictInsert d k v := by
  unfold dictInsert
  split
  · rename_i hany
    obtain ⟨p, hp, hpk⟩ := List.any_eq_true.1 hany
    refine List.mem_map.2 ⟨p, hp, ?_⟩
    rw [if_pos hpk]
  · exact List.mem_append.2 (Or.inr (List.mem_singleton.2 rfl))

/-- Assignment preserves a binding whose value agrees on key clash. -/
theorem mem_dictInsert_of_mem {α : Type} {d : List (String × α)} {k : String} {v : α}
    {k' : String} {v' : α} (h : (k, v) ∈ d) (hcond : k = k' → v = v') :
    (k, v) ∈ dictInsert d k' v' := by
  unfold dictInsert
  split
  · refine List.mem_map.2 ⟨(k, v), h, ?_⟩
    by_cases hk : k = k'
    · rw [if_pos (by simp [hk]), hk, hcond hk]
    · rw [if_neg (by simp [hk])]
  · exact List.mem_append.2 (Or.inl h)

/-- Assigning a fresh key appends it. -/
theorem keys_dictInsert_not_mem {α : Type} {d : List (String × α)} {k : String} (v : α)
    (h : k ∉ keys d) : keys (dictInsert d k v) = keys d ++ [k] := by
  unfold dictInsert
  rw [if_neg]
  · simp [keys]
  · intro hany
    obtain ⟨p, hp, hpk⟩ := List.any_eq_true.1 hany
    exact h (List.mem_map.2 ⟨p, hp, beq_iff_eq.1 hpk⟩)

/-- Membership in the deduplication scanner. -/
theorem mem_dedupAux : ∀ (l seen : List String) (x : String),
    x ∈ dedupAux seen l ↔ x ∈ l ∧ x ∉ seen
  | [], seen, x => by simp [dedupAux]
  | y :: l, seen, x => by
    unfold dedupAux
    split
    · rename_i hy
      rw [mem_dedupAux l seen x]
      have hy' : y ∈ seen := List.elem_iff.1 hy
      constructor
      · rintro ⟨hxl, hxs⟩
        exact ⟨List.mem_cons_of_mem _ hxl, hxs⟩
      · rintro ⟨hxl, hxs⟩
        rcases List.mem_cons.1 hxl with rfl | h
        · exact absurd hy' hxs
        · exact ⟨h, hxs⟩
    · rename_i hy
      have hy' : y ∉ seen := fun hm => hy (List.elem_iff.2 hm)
      constructor
      · intro h
        rcases List.mem_cons.1 h with rfl | h2
        · exact ⟨List.mem_cons_self _ _, hy'⟩
        · have h3 := (mem_dedupAux l (y :: seen) x).1 h2
          exact ⟨List.mem_cons_of_mem _ h3.1,
            fun hm => h3.2 (List.mem_cons_of_mem _ hm)⟩
      · rintro ⟨hxl, hxs⟩
        rcases List.mem_cons.1 hxl with rfl | hxl'
        · exact List.mem_cons_self _ _
        · by_cases hxy : x = y
          · subst hxy
            exact List.mem_cons_self _ _
          · refine List.mem_cons_of_mem _ ((mem_dedupAux l (y :: seen) x).2 ⟨hxl', ?_⟩)
            intro hm
            rcases List.mem_cons.1 hm with h' | h'
            · exact hxy h'
            · exact hxs h'

/-- The deduplication scanner yields no duplicates. -/
theorem nodup_dedupAux : ∀ (l seen : List String), (dedupAux seen l).Nodup
  | [], seen => by simp [dedupAux]
  | y :: l, seen => by
    unfold dedupAux
    split
    · exact nodup_dedupAux l seen
    · refine List.nodup_cons.2 ⟨?_, nodup_dedupAux l (y :: seen)⟩
      intro hm
      exact ((mem_dedupAux l (y :: seen) y).1 hm).2 (List.mem_cons_self _ _)

/-- `set(...)` keeps exactly the members. -/
theorem mem_pyDedup {l : List String} {x : String} : x ∈ pyDedup l ↔ x ∈ l := by
  unfold pyDedup
  rw [mem_dedupAux]
  simp

/-- `set(...)` has no duplicates. -/
theorem nodup_pyDedup (l : List String) : (pyDedup l).Nodup := nodup_dedupAux l []

/-! ## Facts about the disk-usage collector -/

/-- When every stat query succeeds, mount-point resolution succeeds. -/
theorem resolveMounts_ok (env : Env) :
    ∀ (dirs : List String) (acc : List (String × String)),
      (∀ d ∈ dirs, (env.statCmd d).retcode = 0) →
      ∃ m, resolveMounts env dirs acc = .ok m
  | [], acc, _ => ⟨acc, rfl⟩
  | dir :: rest, acc, h => by
    unfold resolveMounts
    rw [if_neg (by simp [h dir (List.mem_cons_self dir rest)])]
    exact resolveMounts_ok env rest _ (fun d hd => h d (List.mem_cons_of_mem _ hd))

/-- A successful resolution maps every configured directory to the
stripped stat output. -/
theorem resolveMounts_mem_canon (env : Env) :
    ∀ (dirs : List String) (acc m : List (String × String)),
      resolveMounts env dirs acc = .ok m →
      (∀ dir ∈ dirs, (dir, pystrip (env.statCmd dir).stdout) ∈ m) ∧
      (∀ k, (k, pystrip (env.statCmd k).stdout) ∈ acc →
        (k, pystrip (env.statCmd k).stdout) ∈ m)
  | [], acc, m, h => by
    cases h
    exact ⟨by simp, fun k hk => hk⟩
  | dir :: rest, acc, m, h => by
    unfold resolveMounts at h
    split at h
    · simp at h
    · have IH := resolveMounts_mem_canon env rest
        (dictInsert acc dir (pystrip (env.statCmd dir).stdout)) m h
      constructor
      · intro d hd
        rcases List.mem_cons.1 hd with rfl | hd'
        · exact IH.2 d (mem_dictInsert_self acc d (pystrip (env.statCmd d).stdout))
        · exact IH.1 d hd'
      · intro k hk
        exact IH.2 k (mem_dictInsert_of_mem hk (fun he => by rw [he]))

/-- If some mount point is missing from the disk-usage data, the space
loop raises `KeyError` on a missing mount point. -/
theorem buildSpaceInfo_error (du : List (String × SpaceRaw)) :
    ∀ (mps : List String) (acc : List (String × SpaceEntry)),
      (∃ mp ∈ mps, dictLookup du mp = none) →
      ∃ mp, dictLookup du mp = none ∧
        buildSpaceInfo du mps acc = .error (.keyError mp)
  | [], _, h => by simp at h
  | mp0 :: rest, acc, h => by
    rcases hl : dictLookup du mp0 with _ | info
    · refine ⟨mp0, hl, ?_⟩
      unfold buildSpaceInfo
      rw [hl]
    · rcases h with ⟨mp, hmem, hnone⟩
      rcases List.mem_cons.1 hmem with rfl | hmem'
      · rw [hl] at hnone
        cases hnone
      · obtain ⟨mp', h1, h2⟩ := buildSpaceInfo_error du rest
          (dictInsert acc mp0
            { used := info.used, available := info.available, total := info.oneKBlocks })
          ⟨mp, hmem', hnone⟩
        refine ⟨mp', h1, ?_⟩
        unfold buildSpaceInfo
        rw [hl]
        exact h2

/-- On success, the space loop visits exactly the given mount points. -/
theorem buildSpaceInfo_ok_keys (du : List (String × SpaceRaw)) :
    ∀ (mps : List String) (acc si : List (String × SpaceEntry)),
      buildSpaceInfo du mps acc = .ok si →
      (∀ k ∈ mps, k ∉ keys acc) → mps.Nodup →
      keys si = keys acc ++ mps
  | [], acc, si, h, _, _ => by
    cases h
    simp
  | mp :: rest, acc, si, h, hfresh, hnodup => by
    unfold buildSpaceInfo at h
    split at h
    · simp at h
    · rename_i info hl
      have hk := keys_dictInsert_not_mem
        ({ used := info.used, available := info.available, total := info.oneKBlocks } : SpaceEntry)
        (hfresh mp (List.mem_cons_self _ _))
      have hfresh2 : ∀ k ∈ rest, k ∉ keys (dictInsert acc mp
          { used := info.used, available := info.available, total := info.oneKBlocks }) := by
        intro k hkrest
        rw [hk]
        intro hmem
        rcases List.mem_append.1 hmem with hmem' | hmem'
        · exact hfresh k (List.mem_cons_of_mem _ hkrest) hmem'
        · have hkm : k = mp := List.mem_singleton.1 hmem'
          subst hkm
          exact (List.nodup_cons.1 hnodup).1 hkrest
      have IH := buildSpaceInfo_ok_keys du rest _ si h hfresh2 (List.nodup_cons.1 hnodup).2
      rw [IH, hk, List.append_assoc]
      rfl

/-- A successful `_avail_space` has duplicate-free `disk_usage` keys
that are exactly the resolved mount-point values. -/
theorem availSpace_ok_spec {env : Env} {av : AvailSpace} (h : availSpace env = .ok av) :
    (keys av.disk_usage).Nodup ∧
    ∀ k, k ∈ keys av.disk_usage ↔ k ∈ av.mount_points.map Prod.snd := by
  unfold availSpace at h
  split at h
  · simp at h
  · rename_i d2mp hres
    split at h
    · simp at h
    · rename_i si hbuild
      cases h
      have hkeys := buildSpaceInfo_ok_keys env.diskUsage (pyDedup (d2mp.map Prod.snd)) [] si
        hbuild (by simp [keys]) (nodup_pyDedup _)
      rw [show keys ([] : List (String × SpaceEntry)) = [] from rfl, List.nil_append] at hkeys
      constructor
      · rw [hkeys]
        exact nodup_pyDedup _
      · intro k
        rw [hkeys]
        exact mem_pyDedup

/-- C9: for every list of configured directories, a successful
disk-usage collection returns a `disk_usage` mapping with exactly one
entry per distinct resolved mount point: its keys are duplicate-free
and are exactly the values of the returned `mount_points` mapping,
even when two directories resolve to the same mount point. -/
theorem claim9_disk_usage_dedup (env : Env) (av : AvailSpace)
    (h : availSpace env = .ok av) :
    (keys av.disk_usage).Nodup ∧
    ∀ k, k ∈ keys av.disk_usage ↔ k ∈ av.mount_points.map Prod.snd :=
  availSpace_ok_spec h

/-- Witness for C9: two directories on one mount point produce a
single `disk_usage` entry. -/
theorem claim9_witness :
    (keys availSharedEx.disk_usage).Nodup ∧
    ∀ k, k ∈ keys availSharedEx.disk_usage ↔ k ∈ availSharedEx.mount_points.map Prod.snd :=
  claim9_disk_usage_dedup envSharedMount availSharedEx (by decide)

/-- C1 (amended): when every stat query succeeds and some configured
directory's resolved mount point is absent from the disk-usage data,
the collector fails — but with a `KeyError` on the missing mount point
(a plain dict lookup failure), not with `StatusCommandError`
(`SmbstatusError`); since `stats` catches only `SmbstatusError`, the
`KeyError` propagates out of `stats` instead of producing
`{'in_error': True}`. -/
theorem claim1_amended (env : Env)
    (hstat : ∀ d ∈ env.sambaDirs, (env.statCmd d).retcode = 0)
    (hmiss : ∃ d ∈ env.sambaDirs,
      dictLookup env.diskUsage (pystrip (env.statCmd d).stdout) = none) :
    ∃ mp, dictLookup env.diskUsage mp = none ∧
      availSpace env = .error (.keyError mp) ∧
      ∀ xs ys, smbstatusData env "shares" parseShareLine = .ok xs →
        smbstatusData env "locks" parseLockLine = .ok ys →
        stats env = .error (.keyError mp) := by
  obtain ⟨m, hres⟩ := resolveMounts_ok env env.sambaDirs [] hstat
  obtain ⟨d, hd, hnone⟩ := hmiss
  have hdm : (d, pystrip (env.statCmd d).stdout) ∈ m :=
    (resolveMounts_mem_canon env env.sambaDirs [] m hres).1 d hd
  have hvald : pystrip (env.statCmd d).stdout ∈ pyDedup (m.map Prod.snd) :=
    mem_pyDedup.2 (List.mem_map.2 ⟨_, hdm, rfl⟩)
  obtain ⟨mp, hmp_none, hbuild⟩ := buildSpaceInfo_error env.diskUsage
    (pyDedup (m.map Prod.snd)) [] ⟨_, hvald, hnone⟩
  have havail : availSpace env = .error (.keyError mp) := by
    have h1 : availSpace env =
        (match buildSpaceInfo env.diskUsage (pyDedup (m.map Prod.snd)) [] with
          | .error e => Except.error e
          | .ok si => Except.ok { mount_points := m, disk_usage := si }) := by
      unfold availSpace
      rw [hres]
    rw [h1, hbuild]
  refine ⟨mp, hmp_none, havail, ?_⟩
  intro xs ys hxs hys
  unfold stats
  rw [hxs, hys, havail]

/-- Counterexample for C1 as stated: at `envMissingMount` the lookup
failure raises `KeyError "/mnt"`, which escapes `stats` — `stats` does
not return `{'in_error': True}`. -/
theorem claim1_counterexample :
    availSpace envMissingMount = .error (.keyError "/mnt") ∧
    stats envMissingMount = .error (.keyError "/mnt") := by decide

/-- Witness for C1 (amended) at the concrete environment. -/
theorem claim1_witness :
    ∃ mp, dictLookup envMissingMount.diskUsage mp = none ∧
      availSpace envMissingMount = .error (.keyError mp) ∧
      ∀ xs ys, smbstatusData envMissingMount "shares" parseShareLine = .ok xs →
        smbstatusData envMissingMount "locks" parseLockLine = .ok ys →
        stats envMissingMount = .error (.keyError mp) :=
  claim1_amended envMissingMount (by decide) ⟨"/mnt/samba", by decide, by decide⟩

/-- C2: if the status subprocess exits non-zero for the shares
subcommand, or the shares stream succeeded and the locks subprocess
exits non-zero, or both streams succeeded and the disk-usage step
raises `SmbstatusError`, then `stats` returns exactly the one-key dict
`{'in_error': True}` (no `status` or `avail_space` keys). -/
theorem claim2_in_error (env : Env)
    (h : (env.runCmd "shares").retcode ≠ 0 ∨
      (∃ xs, smbstatusData env "shares" parseShareLine = .ok xs ∧
        (env.runCmd "locks").retcode ≠ 0) ∨
      (∃ xs ys m, smbstatusData env "shares" parseShareLine = .ok xs ∧
        smbstatusData env "locks" parseLockLine = .ok ys ∧
        availSpace env = .error (.smbstatusError m))) :
    stats env = .ok errorReport := by
  rcases h with h | ⟨xs, hxs, h⟩ | ⟨xs, ys, m, hxs, hys, hav⟩
  · have hdata : smbstatusData env "shares" parseShareLine =
        .error (.smbstatusError (env.runCmd "shares").stderr) := by
      unfold smbstatusData smbstatusCmd
      rw [if_pos h]
    unfold stats
    rw [hdata]
  · have hdata : smbstatusData env "locks" parseLockLine =
        .error (.smbstatusError (env.runCmd "locks").stderr) := by
      unfold smbstatusData smbstatusCmd
      rw [if_pos h]
    unfold stats
    rw [hxs, hdata]
  · unfold stats
    rw [hxs, hys, hav]

/-- Witness for C2 at a run whose shares subprocess exits with 1. -/
theorem claim2_witness : stats envCmdFail = .ok errorReport :=
  claim2_in_error envCmdFail (Or.inl (by decide))

/-! ## Keys of the status mapping -/

/-- A defaultdict access-and-update can only add the accessed key. -/
theorem mem_keys_ddUpdate {d : List (String × ShareUsage)} {k : String}
    {f : ShareUsage → ShareUsage} {k' : String} :
    k' ∈ keys (ddUpdate d k f) ↔ k' ∈ keys d ∨ k' = k := by
  unfold ddUpdate
  split
  · rename_i hany
    have hkeys : keys (d.map (fun p => if p.1 == k then (p.1, f p.2) else p)) = keys d := by
      unfold keys
      rw [List.map_map]
      congr 1
      funext p
      simp only [Function.comp_apply]
      split <;> rfl
    rw [hkeys]
    constructor
    · exact Or.inl
    · rintro (h | rfl)
      · exact h
      · obtain ⟨p, hp, hpk⟩ := List.any_eq_true.1 hany
        exact List.mem_map.2 ⟨p, hp, beq_iff_eq.1 hpk⟩
  · unfold keys
    rw [List.map_append]
    simp [List.mem_append]

/-- Folding appends over pairs adds exactly the pairs' keys. -/
theorem mem_keys_foldl_upd (g : PyDict → ShareUsage → ShareUsage) :
    ∀ (xs : List (String × PyDict)) (d : List (String × ShareUsage)) (k : String),
      k ∈ keys (xs.foldl (fun acc q => ddUpdate acc q.1 (g q.2)) d) ↔
        k ∈ keys d ∨ k ∈ keys xs
  | [], d, k => by simp [keys]
  | q :: xs, d, k => by
    rw [List.foldl_cons, mem_keys_foldl_upd g xs (ddUpdate d q.1 (g q.2)) k,
      mem_keys_ddUpdate]
    unfold keys
    rw [List.map_cons]
    constructor
    · rintro ((h | rfl) | h)
      · exact Or.inl h
      · exact Or.inr (List.mem_cons_self _ _)
      · exact Or.inr (List.mem_cons_of_mem _ h)
    · rintro (h | h)
      · exact Or.inl (Or.inl h)
      · rcases List.mem_cons.1 h with rfl | h'
        · exact Or.inl (Or.inr rfl)
        · exact Or.inr h'

/-- The keys of the folded status mapping are the observed shares. -/
theorem mem_keys_foldPairs {xs ys : List (String × PyDict)} {k : String} :
    k ∈ keys (foldPairs xs ys) ↔ k ∈ keys xs ∨ k ∈ keys ys := by
  unfold foldPairs addLock addMachine
  rw [mem_keys_foldl_upd lockAdd ys _ k, mem_keys_foldl_upd machAdd xs [] k]
  constructor
  · rintro ((h | h) | h)
    · simp [keys] at h
    · exact Or.inl h
    · exact Or.inr h
  · rintro (h | h)
    · exact Or.inl (Or.inr h)
    · exact Or.inr h

/-- C8: after a successful `stats` run, the keys of the `status`
mapping are exactly the set of share names observed in at least one of
the two data streams (shares connections and file locks). -/
theorem claim8_status_keys (env : Env) (xs ys : List (String × PyDict))
    (st : List (String × ShareUsage)) (av : AvailSpace)
    (hxs : smbstatusData env "shares" parseShareLine = .ok xs)
    (hys : smbstatusData env "locks" parseLockLine = .ok ys)
    (hst : stats env = .ok (fullReport st av)) :
    ∀ k, k ∈ keys st ↔ k ∈ keys xs ∨ k ∈ keys ys := by
  have hstats : stats env =
      (match availSpace env with
        | .error (.smbstatusError _) => .ok errorReport
        | .error e => Except.error e
        | .ok av' => Except.ok (fullReport (foldPairs xs ys) av')) := by
    unfold stats
    rw [hxs, hys]
  rw [hstats] at hst
  split at hst
  · simp [errorReport, fullReport] at hst
  · simp at hst
  · rename_i av' hav
    simp only [fullReport, Except.ok.injEq, Report.mk.injEq, Option.some.injEq] at hst
    obtain ⟨-, hst1, -⟩ := hst
    subst hst1
    intro k
    exact mem_keys_foldPairs

/-- Witness for C8 at the concrete successful run. -/
theorem claim8_witness :
    ("pub" ∈ keys statusReportEx ↔
      "pub" ∈ keys sharesPairsEx ∨ "pub" ∈ keys locksPairsEx) :=
  claim8_status_keys envReport sharesPairsEx locksPairsEx statusReportEx availEmptyEx
    (by decide) (by decide) (by decide) "pub"

/-! ## Field sets of the stored records -/

/-- Every element of a defaultdict after an update comes from the old
dict (possibly updated at the key) or is the fresh skeleton entry. -/
theorem mem_ddUpdate {d : List (String × ShareUsage)} {k : String}
    {f : ShareUsage → ShareUsage} {p : String × ShareUsage} (h : p ∈ ddUpdate d k f) :
    (∃ q ∈ d, p = q ∨ p = (q.1, f q.2)) ∨ p = (k, f shareItemSkel) := by
  unfold ddUpdate at h
  split at h
  · obtain ⟨q, hq, heq⟩ := List.mem_map.1 h
    left
    refine ⟨q, hq, ?_⟩
    by_cases hc : (q.1 == k) = true
    · rw [if_pos hc] at heq
      exact Or.inr heq.symm
    · rw [if_neg hc] at heq
      exact Or.inl heq.symm
  · rcases List.mem_append.1 h with h' | h'
    · exact Or.inl ⟨p, h', Or.inl rfl⟩
    · exact Or.inr (List.mem_singleton.1 h')

/-- An entry predicate preserved by the per-item updates and satisfied
by the fresh entries holds for every entry of the fold. -/
theorem foldl_ddUpdate_pres (g : PyDict → ShareUsage → ShareUsage)
    (Q : String × ShareUsage → Prop) :
    ∀ (xs : List (String × PyDict)) (d : List (String × ShareUsage)),
      (∀ p ∈ d, Q p) →
      (∀ q ∈ xs, ∀ p : String × ShareUsage, Q p → Q (p.1, g (Prod.snd q) p.2)) →
      (∀ q ∈ xs, Q (Prod.fst q, g (Prod.snd q) shareItemSkel)) →
      ∀ p ∈ xs.foldl (fun acc q => ddUpdate acc q.1 (g q.2)) d, Q p
  | [], _, hd, _, _ => hd
  | q :: xs, d, hd, hupd, hnew => by
    rw [List.foldl_cons]
    refine foldl_ddUpdate_pres g Q xs (ddUpdate d q.1 (g q.2)) ?_
      (fun q' hq' => hupd q' (List.mem_cons_of_mem _ hq'))
      (fun q' hq' => hnew q' (List.mem_cons_of_mem _ hq'))
    intro p hp
    rcases mem_ddUpdate hp with ⟨q0, hq0, heq | heq⟩ | heq
    · rw [heq]
      exact hd q0 hq0
    · rw [heq]
      exact hupd q (List.mem_cons_self _ _) q0 (hd q0 hq0)
    · rw [heq]
      exact hnew q (List.mem_cons_self _ _)

/-- C3 (amended): in every successful report, each stored
ShareConnection record carries exactly the fields {machine, date} and
each stored FileLock record exactly {pid, uid, denyMode, access, rw,
oplock, filename, date}; the `share` field is popped by the data
generator and used only as the grouping key, so no stored record
carries a `share` field. -/
theorem claim3_amended (env : Env) (rep : Report) (st : List (String × ShareUsage))
    (p : String × ShareUsage)
    (hstats : stats env = .ok rep) (hst : rep.status = some st) (hp : p ∈ st) :
    (∀ r ∈ p.2.machines, ∀ j, j ∈ keys r ↔ j ∈ ["machine", "date"]) ∧
    (∀ r ∈ p.2.locked_files, ∀ j, j ∈ keys r ↔
      j ∈ ["pid", "uid", "denyMode", "access", "rw", "oplock", "filename", "date"]) := by
  unfold stats at hstats
  split at hstats
  · cases hstats
    simp [errorReport] at hst
  · simp at hstats
  · rename_i xs hxs
    split at hstats
    · cases hstats
      simp [errorReport] at hst
    · simp at hstats
    · rename_i ys hys
      split at hstats
      · cases hstats
        simp [errorReport] at hst
      · simp at hstats
      · rename_i av hav
        cases hstats
        simp only [fullReport, Option.some.injEq] at hst
        subst hst
        have hxs' : ∀ q ∈ xs, ∀ j, (j ∈ keys q.2 ↔ j ∈ ["machine", "date"]) := by
          intro q hq
          obtain ⟨j0, l0, r, hok, hsh, he⟩ :=
            collectPairs_mem _ 0 xs (smbstatusData_ok_collect hxs) q hq
          obtain ⟨sh, mm, dt, rfl, -⟩ := parseShareLine_ok_some hok
          intro j
          rw [he]
          rw [show dictRemove [("share", sh), ("machine", mm), ("date", dt)] "share" =
              [("machine", mm), ("date", dt)] from rfl]
          rw [show keys [("machine", mm), ("date", dt)] = ["machine", "date"] from rfl]
        have hys' : ∀ q ∈ ys, ∀ j, (j ∈ keys q.2 ↔
            j ∈ ["pid", "uid", "denyMode", "access", "rw", "oplock", "filename", "date"]) := by
          intro q hq
          obtain ⟨j0, l0, r, hok, hsh, he⟩ :=
            collectPairs_mem _ 0 ys (smbstatusData_ok_collect hys) q hq
          obtain ⟨g, dt, -, -, rfl⟩ := parseLockLine_ok_some hok
          intro j
          rw [he]
          rw [show dictRemove [("pid", g.pid), ("uid", g.uid), ("denyMode", g.denyMode),
              ("access", g.access), ("rw", g.rw), ("oplock", g.oplock),
              ("filename", g.filename), ("date", dt), ("share", basename g.sharePath)]
              "share" =
              [("pid", g.pid), ("uid", g.uid), ("denyMode", g.denyMode),
               ("access", g.access), ("rw", g.rw), ("oplock", g.oplock),
               ("filename", g.filename), ("date", dt)] from rfl]
          rw [show keys [("pid", g.pid), ("uid", g.uid), ("denyMode", g.denyMode),
              ("access", g.access), ("rw", g.rw), ("oplock", g.oplock),
              ("filename", g.filename), ("date", dt)] =
              ["pid", "uid", "denyMode", "access", "rw", "oplock", "filename", "date"]
              from rfl]
        unfold foldPairs addLock addMachine at hp
        constructor
        · have hinner : ∀ p' ∈ xs.foldl (fun acc q => ddUpdate acc q.1 (machAdd q.2)) [],
              ∀ r ∈ p'.2.machines, ∀ j, j ∈ keys r ↔ j ∈ ["machine", "date"] := by
            refine foldl_ddUpdate_pres machAdd _ xs [] (by simp) ?_ ?_
            · intro q hq p' hQ r hr
              rcases List.mem_append.1 hr with hr' | hr'
              · exact hQ r hr'
              · rcases List.mem_singleton.1 hr' with rfl
                exact hxs' q hq
            · intro q hq r hr
              rcases List.mem_singleton.1 (by simpa [machAdd, shareItemSkel] using hr)
                with rfl
              exact hxs' q hq
          exact foldl_ddUpdate_pres lockAdd _ ys _ hinner
            (fun q hq p' hQ r hr => hQ r hr)
            (fun q hq r hr => by simp [lockAdd, shareItemSkel] at hr)
            p hp
        · have hinner2 : ∀ p' ∈ xs.foldl (fun acc q => ddUpdate acc q.1 (machAdd q.2)) [],
              ∀ r ∈ p'.2.locked_files, ∀ j, j ∈ keys r ↔
                j ∈ ["pid", "uid", "denyMode", "access", "rw", "oplock", "filename", "date"] := by
            refine foldl_ddUpdate_pres machAdd _ xs [] (by simp) ?_ ?_
            · intro q hq p' hQ r hr
              exact hQ r hr
            · intro q hq r hr
              simp [machAdd, shareItemSkel] at hr
          exact foldl_ddUpdate_pres lockAdd _ ys _ hinner2
            (fun q hq p' hQ r hr => by
              rcases List.mem_append.1 hr with hr' | hr'
              · exact hQ r hr'
              · rcases List.mem_singleton.1 hr' with rfl
                exact hys' q hq)
            (fun q hq r hr => by
              rcases List.mem_singleton.1 (by simpa [lockAdd, shareItemSkel] using hr)
                with rfl
              exact hys' q hq)
            p hp

/-- Counterexample for C3 as stated: in the concrete successful report
the stored records carry no `share` field (it was popped by the
generator). -/
theorem claim3_counterexample :
    stats envReport = .ok (fullReport statusReportEx availEmptyEx) ∧
    "share" ∉ keys lockRecEx ∧ "share" ∉ keys shareRecEx := by decide

/-- Witness for C3 (amended) at the concrete stored lock record. -/
theorem claim3_witness :
    ("share" ∈ keys lockRecEx ↔
      "share" ∈ ["pid", "uid", "denyMode", "access", "rw", "oplock", "filename", "date"]) :=
  (claim3_amended envReport (fullReport statusReportEx availEmptyEx)
    statusReportEx ("s", { machines := [], locked_files := [lockRecEx] })
    (by decide) rfl (by decide)).2 lockRecEx (by decide) "share"

end SambaUsers
